import Mathlib

/-!
Verification development for the `pelican-go-semantic-ui` plugin
(`pelican_semantic.py`).  The plugin overrides a handful of visit/depart
hooks of an HTML-emitting document-tree walker.  Below, each overridden
hook is embedded as a pure Lean function over an explicit translator
state, and the depth-first walk of a (simplified) document tree is a
structurally recursive function threading that state and returning the
(possibly mutated) tree, mirroring the in-place mutation the Python code
performs on `node['classes']` and `node['ids']`.
-/

namespace PelicanSemantic

/-- Render settings consumed by the translator during a walk:
`initial_header_level` offsets headings, `compact_field_lists` is the
global compact-field-list toggle. -/
structure Settings where
  initial_header_level : Nat
  compact_field_lists : Bool
deriving DecidableEq, Repr

/-- Translator state threaded through the walk: `body` is the output
buffer (list of appended HTML fragments), `context` the pending-close
stack (head = top, mirroring Python `list.append`/`list.pop`),
`section_level` the section nesting counter, `in_document_title` the
recorded document-title buffer position.  `trace` is ghost
instrumentation only: it records the value of `section_level` at the
moment each node's visit begins, and is read by no hook. -/
structure TState where
  body : List String
  context : List String
  section_level : Nat
  in_document_title : Nat
  trace : List Nat
  settings : Settings
deriving DecidableEq, Repr

/-- One HTML attribute rendered as ` name="value"` (attribute values of
this development contain no characters needing escaping). -/
def attrText (p : String × String) : String :=
  " " ++ p.1 ++ "=\"" ++ p.2 ++ "\""

/-- Insert one attribute into a name-sorted attribute list. -/
def insertAttr (p : String × String) :
    List (String × String) → List (String × String)
  | [] => [p]
  | q :: rest =>
      if compare p.1 q.1 == Ordering.gt then q :: insertAttr p rest
      else p :: q :: rest

/-- Sort attributes by name, as the host library's tag builder does with
`sorted(atts.items())`. -/
def sortAttrs (l : List (String × String)) : List (String × String) :=
  l.foldr insertAttr []

/-- Modelled from the spec: the host library's `starttag` helper (library
code, not part of src).  It merges the class tokens passed via a
`CLASS`/`class` attribute (`attClasses`) with the node's own `classes`
attribute (`nodeClasses`) into one `class` attribute (omitted when the
merged list is empty), turns the first node id into an `id` attribute,
emits all attributes sorted by name, and appends `suffix` (the host
default suffix is a newline). -/
def starttag (tagname suffix : String) (attClasses nodeClasses ids : List String)
    (atts : List (String × String)) : String :=
  let classes := attClasses ++ nodeClasses
  let a1 := if classes.isEmpty then atts
            else atts ++ [("class", String.intercalate " " classes)]
  let a2 := match ids with
            | [] => a1
            | i :: _ => a1 ++ [("id", i)]
  "<" ++ tagname ++ String.join ((sortAttrs a2).map attrText) ++ ">" ++ suffix

/-- Embeds `SemanticHTMLTranslator.visit_literal` (src lines 12-21): on a
`code` class, strip it from the node's classes and emit a `<code>` start
tag; else on a `kbd` class, strip it and emit `<kbd>`; else emit `<code>`.
Returns the updated state and the node's updated class list (the Python
code mutates `node['classes']` in place before calling `starttag`). -/
def visit_literal (st : TState) (classes : List String) :
    TState × List String :=
  if "code" ∈ classes then
    let cls := classes.filter (fun c => c ≠ "code")
    ({ st with body := st.body ++ [starttag "code" "\n" [] cls [] []] }, cls)
  else if "kbd" ∈ classes then
    let cls := classes.filter (fun c => c ≠ "kbd")
    ({ st with body := st.body ++ [starttag "kbd" "\n" [] cls [] []] }, cls)
  else
    ({ st with body := st.body ++ [starttag "code" "\n" [] classes [] []] },
     classes)

/-- Embeds `SemanticHTMLTranslator.depart_literal` (src lines 23-30): it
re-reads the node's (possibly already mutated) class list and appends the
matching close fragment. -/
def depart_literal (st : TState) (classes : List String) : TState :=
  if "code" ∈ classes then { st with body := st.body ++ ["</code>\n"] }
  else if "kbd" ∈ classes then { st with body := st.body ++ ["</kbd>\n"] }
  else { st with body := st.body ++ ["</code>\n"] }

/-- Embeds `visit_section` (src lines 34-35): increment the nesting
counter, emit nothing. -/
def visit_section (st : TState) : TState :=
  { st with section_level := st.section_level + 1 }

/-- Embeds `depart_section` (src lines 37-38): decrement the nesting
counter, emit nothing. -/
def depart_section (st : TState) : TState :=
  { st with section_level := st.section_level - 1 }

/-- The kind (plus the data `visit_title` reads) of a title node's
immediate parent: for a section parent, its `ids` attribute and whether
its second child is a subtitle; `other` stands for any parent that is
none of the kinds the `visit_title` branch chain expects. -/
inductive ParentCtx where
  | topic
  | sidebar
  | admonition
  | table
  | document
  | section (ids : List String) (withSubtitle : Bool)
  | other
deriving DecidableEq, Repr

/-- Embeds `visit_title` (src lines 40-83).  Branches on the parent kind;
in the section branch it computes the heading level from the nesting
counter and `initial_header_level`, copies the parent section's ids onto
the title (the in-place mutation `node['ids'] = node.parent['ids']`),
adds `with-subtitle` when the section's second child is a subtitle, and
wraps the heading text in a `toc-backref` anchor when the node has a
`refid`.  Every branch pushes exactly one close fragment onto `context`.
The `assert isinstance(node.parent, nodes.section)` of the fallback
branch is embedded as `none` (fatal failure). -/
def visit_title (st : TState) (parent : ParentCtx) (refid : Option String)
    (ids : List String) : Option (TState × List String) :=
  match parent with
  | .topic =>
      some ({ st with
                body := st.body ++
                  [starttag "p" "" ["topic-title", "first"] [] ids []],
                context := "</p>\n" :: st.context }, ids)
  | .sidebar =>
      some ({ st with
                body := st.body ++ [starttag "p" "" ["sidebar-title"] [] ids []],
                context := "</p>\n" :: st.context }, ids)
  | .admonition =>
      some ({ st with
                body := st.body ++
                  [starttag "p" "" ["admonition-title"] [] ids []],
                context := "</p>\n" :: st.context }, ids)
  | .table =>
      some ({ st with
                body := st.body ++ [starttag "caption" "" [] [] ids []],
                context := "</caption>\n" :: st.context }, ids)
  | .document =>
      let body1 := st.body ++ [starttag "h1" "" ["title"] [] ids []]
      some ({ st with
                body := body1,
                context := "</h1>\n" :: st.context,
                in_document_title := body1.length }, ids)
  | .section pids withSub =>
      let h_level := st.section_level + st.settings.initial_header_level - 1
      let ids1 := pids
      let hatts : List String := if withSub then ["with-subtitle"] else []
      let body1 := st.body ++
        [starttag ("h" ++ toString h_level) "" hatts [] ids1 []]
      match refid with
      | some r =>
          some ({ st with
                    body := body1 ++
                      [starttag "a" "" ["toc-backref"] [] [] [("href", "#" ++ r)]],
                    context :=
                      ("</a></h" ++ toString h_level ++ ">\n") :: st.context },
                ids1)
      | none =>
          some ({ st with
                    body := body1,
                    context :=
                      ("</h" ++ toString h_level ++ ">\n") :: st.context },
                ids1)
  | .other => none

/-- Modelled from the spec: `depart_title` is inherited host code (not in
src); per the spec's deferred-close design it pops the pending close
fragment pushed by `visit_title` and appends it to the output buffer. -/
def depart_title (st : TState) : TState :=
  match st.context with
  | c :: rest => { st with context := rest, body := st.body ++ [c] }
  | [] => st

mutual

/-- Simplified document tree restricted to the node kinds the embedded
hooks act on: inline literals (carrying their class list and text),
titles (carrying an optional `refid`, their `ids` and text), subtitles,
and sections (carrying `ids` and children).  A mutual forest type is
used so the walk is structurally recursive. -/
inductive DNode where
  | literal (classes : List String) (text : String)
  | title (refid : Option String) (ids : List String) (text : String)
  | subtitle (text : String)
  | section (ids : List String) (children : DForest)

/-- A list of sibling document nodes. -/
inductive DForest where
  | nil
  | cons (head : DNode) (tail : DForest)

end

/-- Whether a section's second child is a subtitle: embeds the test
`len(node.parent) >= 2 and isinstance(node.parent[1], nodes.subtitle)`
from `visit_title`. -/
def hasSubtitleSecond : DForest → Bool
  | .cons _ (.cons (DNode.subtitle _) _) => true
  | _ => false

/-- Ghost instrumentation: record the current nesting counter at the
start of a node's visit. -/
def noteVisit (st : TState) : TState :=
  { st with trace := st.trace ++ [st.section_level] }

mutual

/-- Depth-first walk of one node with the embedded hooks: visit, walk
children / emit the node's text (the host's text rendering is modelled
as appending the text verbatim), depart.  Returns the updated state and
the node as the walk leaves it (the Python hooks mutate literal class
lists and title ids in place).  Node kinds whose hooks are not
overridden in src (subtitle) are modelled as emitting nothing.  `none`
models a fatal assertion failure inside a hook. -/
def walkNode (st : TState) (parent : ParentCtx) :
    DNode → Option (TState × DNode)
  | .literal classes text =>
      let st1 := noteVisit st
      let p1 := visit_literal st1 classes
      let st2 := { p1.1 with body := p1.1.body ++ [text] }
      some (depart_literal st2 p1.2, .literal p1.2 text)
  | .title refid ids text =>
      let st1 := noteVisit st
      match visit_title st1 parent refid ids with
      | none => none
      | some (st2, ids1) =>
          let st3 := { st2 with body := st2.body ++ [text] }
          some (depart_title st3, .title refid ids1 text)
  | .subtitle text =>
      some (noteVisit st, .subtitle text)
  | .section ids children =>
      let st1 := visit_section (noteVisit st)
      match walkForest st1 (.section ids (hasSubtitleSecond children)) children with
      | none => none
      | some (st2, children1) =>
          some (depart_section st2, .section ids children1)

/-- Walk a forest of siblings left to right, threading the state. -/
def walkForest (st : TState) (parent : ParentCtx) :
    DForest → Option (TState × DForest)
  | .nil => some (st, .nil)
  | .cons n rest =>
      match walkNode st parent n with
      | none => none
      | some (st1, n1) =>
          match walkForest st1 parent rest with
          | none => none
          | some (st2, rest1) => some (st2, .cons n1 rest1)

end

/-- The translator state at the start of a walk: empty buffers, nesting
counter 0. -/
def initialTState (s : Settings) : TState :=
  { body := [], context := [], section_level := 0, in_document_title := 0,
    trace := [], settings := s }

/-- The plugin's default render settings (`initial_header_level = 2`,
compact field lists off unless configured). -/
def defaultSettings : Settings :=
  { initial_header_level := 2, compact_field_lists := false }

/-! ## Field lists -/

/-- The kinds a field body's child can have, as far as the compactness
check distinguishes them: paragraph, line block, invisible nodes
(filtered out), anything else. -/
inductive FieldChildKind where
  | paragraph
  | line_block
  | invisible
  | other
deriving DecidableEq, Repr

/-- One field of a field list, reduced to the children of its
`field_body` (the field's last child in the document tree). -/
structure Field where
  body_children : List FieldChildKind
deriving DecidableEq, Repr

/-- A field-list node: its class list and its fields. -/
structure FieldListNode where
  classes : List String
  fields : List Field
deriving DecidableEq, Repr

/-- Translator state relevant to `visit_field_list`: the compact flag,
the `compact_p` flag, the saved-state stack, the output buffer, and the
global `compact_field_lists` setting. -/
structure FLState where
  compact_field_list : Bool
  compact_p : Option Bool
  fl_context : List (Bool × Option Bool)
  body : List String
  compact_field_lists_setting : Bool
deriving DecidableEq, Repr

/-- The per-field guard condition of `visit_field_list` (src lines
138-148): after dropping invisible children, the field body is empty or
has exactly one child that is a paragraph or a line block. -/
def fieldOk (f : Field) : Bool :=
  let children := f.body_children.filter (fun c => c ≠ FieldChildKind.invisible)
  children.length == 0 ||
    (children.length == 1 &&
      (children.head? == some FieldChildKind.paragraph ||
       children.head? == some FieldChildKind.line_block))

/-- Embeds `visit_field_list` (src lines 129-151): push the current
`(compact_field_list, compact_p)` pair, reset `compact_p`, tentatively
enable the compact flag on a `compact` class or on the global setting
absent an `open` class, then — whenever the flag is enabled — run the
per-field guard loop (its early `break` makes its net effect `all
fieldOk`), and finally emit the table start tag and `<tbody>`. -/
def visit_field_list (st : FLState) (node : FieldListNode) : FLState :=
  let st1 := { st with
                 fl_context := (st.compact_field_list, st.compact_p) :: st.fl_context,
                 compact_p := none }
  let st2 :=
    if "compact" ∈ node.classes then { st1 with compact_field_list := true }
    else if st1.compact_field_lists_setting && !("open" ∈ node.classes : Bool) then
      { st1 with compact_field_list := true }
    else st1
  let st3 :=
    if st2.compact_field_list then
      { st2 with compact_field_list := node.fields.all fieldOk }
    else st2
  { st3 with
      body := st3.body ++
        [starttag "table" "\n" ["docutils", "field-list"] node.classes [] [],
         "<tbody>\n"] }

/-! ## Publisher settings merge -/

/-- A docutils settings value: the plugin's defaults use strings, an
integer and a boolean. -/
inductive DVal where
  | str (s : String)
  | int (n : Int)
  | bool (b : Bool)
deriving DecidableEq, Repr

/-- The plugin's `extra_params` defaults from
`SemanticRSTReader._get_publisher` (src lines 171-175). -/
def extra_params : List (String × DVal) :=
  [("initial_header_level", .str "2"),
   ("syntax_highlight", .str "short"),
   ("input_encoding", .str "utf-8"),
   ("exit_status_level", .int 2),
   ("embed_stylesheet", .bool false)]

/-- Python `dict[k] = v`: replace the value at an existing key, else
append the new binding. -/
def dictSet : List (String × DVal) → String → DVal → List (String × DVal)
  | [], k, v => [(k, v)]
  | (k1, v1) :: rest, k, v =>
      if k1 = k then (k, v) :: rest else (k1, v1) :: dictSet rest k v

/-- Python `d.update(u)`: set every binding of `u` in `d`, in order. -/
def dictUpdate (d u : List (String × DVal)) : List (String × DVal) :=
  u.foldl (fun acc p => dictSet acc p.1 p.2) d

/-- Embeds the settings merge of `_get_publisher` (src lines 176-178):
`extra_params.update(user_params)` guarded by the truthiness test
`if user_params:` (an absent or empty user dict leaves defaults). -/
def mergedParams (user : List (String × DVal)) : List (String × DVal) :=
  if user.isEmpty then extra_params else dictUpdate extra_params user

/-! ## Auxiliary predicates on trees -/

mutual

/-- No literal node of the tree carries the `kbd` marker class. -/
def noKbdNode : DNode → Bool
  | .literal classes _ => decide ("kbd" ∉ classes)
  | .title _ _ _ => true
  | .subtitle _ => true
  | .section _ children => noKbdForest children

/-- `noKbdNode` over a forest. -/
def noKbdForest : DForest → Bool
  | .nil => true
  | .cons n rest => noKbdNode n && noKbdForest rest

end

mutual

/-- Section-nesting depth of every node of a subtree, in depth-first
visit order, starting from base depth `d`: a section contributes its own
depth and its children's depths at `d + 1`; any other node contributes
its own depth. -/
def nodeDepths (d : Nat) : DNode → List Nat
  | .section _ children => d :: forestDepths (d + 1) children
  | _ => [d]

/-- `nodeDepths` over a forest of siblings (all at depth `d`). -/
def forestDepths (d : Nat) : DForest → List Nat
  | .nil => []
  | .cons n rest => nodeDepths d n ++ forestDepths d rest

end

/-- Whether a node is a subtitle. -/
def isSubtitleNode : DNode → Bool
  | .subtitle _ => true
  | _ => false

/-- Whether the first node of a forest is a subtitle. -/
def headIsSubtitle : DForest → Bool
  | .cons n _ => isSubtitleNode n
  | .nil => false

theorem hasSubtitleSecond_cons (n : DNode) (rest : DForest) :
    hasSubtitleSecond (.cons n rest) = headIsSubtitle rest := by
  cases rest with
  | nil => rfl
  | cons m r => cases m <;> rfl

/-! ## Preservation lemmas for the hooks -/

theorem visit_literal_fst (st : TState) (classes : List String) :
    (visit_literal st classes).1 =
      { st with body := (visit_literal st classes).1.body } := by
  unfold visit_literal
  split
  · rfl
  · split <;> rfl

theorem depart_literal_eq (st : TState) (classes : List String) :
    depart_literal st classes =
      { st with body := (depart_literal st classes).body } := by
  unfold depart_literal
  split
  · rfl
  · split <;> rfl

theorem depart_title_eq (st : TState) :
    depart_title st =
      { st with body := (depart_title st).body,
                context := (depart_title st).context } := by
  unfold depart_title
  split <;> rfl

theorem visit_title_preserves (st : TState) (p : ParentCtx)
    (refid : Option String) (ids : List String) (stf : TState)
    (ids1 : List String) (h : visit_title st p refid ids = some (stf, ids1)) :
    stf =
      { st with body := stf.body, context := stf.context,
                in_document_title := stf.in_document_title } := by
  cases p <;> (try cases refid) <;>
    simp only [visit_title, Option.some.injEq, Prod.mk.injEq] at h <;>
    obtain ⟨h1, h2⟩ := h <;> subst h1 <;> rfl

mutual

theorem walkNode_trace (st : TState) (p : ParentCtx) (t : DNode) (st1 : TState)
    (t1 : DNode) (h : walkNode st p t = some (st1, t1)) :
    st1.section_level = st.section_level ∧
    st1.trace = st.trace ++ nodeDepths st.section_level t := by
  cases t
  next classes text =>
    simp only [walkNode, Option.some.injEq, Prod.mk.injEq] at h
    obtain ⟨h1, h2⟩ := h
    subst h1
    rw [depart_literal_eq, visit_literal_fst]
    exact ⟨rfl, rfl⟩
  next refid ids text =>
    simp only [walkNode] at h
    split at h
    · simp at h
    next st2 ids1 hv =>
      simp only [Option.some.injEq, Prod.mk.injEq] at h
      obtain ⟨h1, h2⟩ := h
      subst h1
      rw [depart_title_eq]
      rw [visit_title_preserves (noteVisit st) p refid ids st2 ids1 hv]
      exact ⟨rfl, rfl⟩
  next text =>
    simp only [walkNode, Option.some.injEq, Prod.mk.injEq] at h
    obtain ⟨h1, h2⟩ := h
    subst h1
    exact ⟨rfl, rfl⟩
  next ids children =>
    simp only [walkNode] at h
    split at h
    · simp at h
    next st2 cs1 hw =>
      simp only [Option.some.injEq, Prod.mk.injEq] at h
      obtain ⟨h1, h2⟩ := h
      subst h1
      obtain ⟨hl, ht⟩ := walkForest_trace _ _ _ _ _ hw
      constructor
      · simp [depart_section, hl, visit_section, noteVisit]
      · simp only [depart_section, hl, ht, visit_section, noteVisit,
          nodeDepths, List.append_assoc, List.singleton_append]

theorem walkForest_trace (st : TState) (p : ParentCtx) (f : DForest)
    (st1 : TState) (f1 : DForest) (h : walkForest st p f = some (st1, f1)) :
    st1.section_level = st.section_level ∧
    st1.trace = st.trace ++ forestDepths st.section_level f := by
  cases f with
  | nil =>
      simp only [walkForest, Option.some.injEq, Prod.mk.injEq] at h
      obtain ⟨h1, h2⟩ := h
      subst h1
      simp [forestDepths]
  | cons n rest =>
      simp only [walkForest] at h
      split at h
      · simp at h
      next stA n1 hn =>
        split at h
        · simp at h
        next stB rest1 hr =>
          simp only [Option.some.injEq, Prod.mk.injEq] at h
          obtain ⟨h1, h2⟩ := h
          subst h1
          obtain ⟨hl1, ht1⟩ := walkNode_trace st p n stA n1 hn
          obtain ⟨hl2, ht2⟩ := walkForest_trace stA p rest stB rest1 hr
          refine ⟨by rw [hl2, hl1], ?_⟩
          rw [ht2, ht1, hl1, forestDepths, List.append_assoc]

end

/-! ## Stability of the hooks on already-walked nodes -/

theorem visit_literal_stable (st : TState) (classes : List String)
    (hk : "kbd" ∉ classes) :
    visit_literal st (visit_literal st classes).2 = visit_literal st classes := by
  by_cases hc : "code" ∈ classes
  · have h2 : (visit_literal st classes).2 = classes.filter (fun c => c ≠ "code") := by
      simp [visit_literal, hc]
    have hnc : "code" ∉ classes.filter (fun c => c ≠ "code") := by
      simp [List.mem_filter]
    have hnk : "kbd" ∉ classes.filter (fun c => c ≠ "code") := fun hmem =>
      hk (List.mem_of_mem_filter hmem)
    rw [h2]
    unfold visit_literal
    rw [if_neg hnc, if_neg hnk, if_pos hc]
  · by_cases hb : "kbd" ∈ classes
    · exact absurd hb hk
    · have h2 : (visit_literal st classes).2 = classes := by
        simp [visit_literal, hc, hb]
      rw [h2]

theorem visit_title_stable (st : TState) (p : ParentCtx)
    (refid : Option String) (ids : List String) (stf : TState)
    (ids1 : List String) (h : visit_title st p refid ids = some (stf, ids1)) :
    visit_title st p refid ids1 = some (stf, ids1) := by
  cases p <;> (try cases refid) <;>
    simp only [visit_title, Option.some.injEq, Prod.mk.injEq] at h ⊢ <;>
    obtain ⟨h1, h2⟩ := h <;> subst h2 <;> exact ⟨h1, by trivial⟩

mutual

theorem walkNode_subtitle_kind (st : TState) (p : ParentCtx) (t : DNode)
    (st1 : TState) (t1 : DNode) (h : walkNode st p t = some (st1, t1)) :
    isSubtitleNode t1 = isSubtitleNode t := by
  cases t
  next classes text =>
    simp only [walkNode, Option.some.injEq, Prod.mk.injEq] at h
    obtain ⟨h1, h2⟩ := h
    subst h2
    rfl
  next refid ids text =>
    simp only [walkNode] at h
    split at h
    · simp at h
    next st2 ids1 hv =>
      simp only [Option.some.injEq, Prod.mk.injEq] at h
      obtain ⟨h1, h2⟩ := h
      subst h2
      rfl
  next text =>
    simp only [walkNode, Option.some.injEq, Prod.mk.injEq] at h
    obtain ⟨h1, h2⟩ := h
    subst h2
    rfl
  next ids children =>
    simp only [walkNode] at h
    split at h
    · simp at h
    next st2 cs1 hw =>
      simp only [Option.some.injEq, Prod.mk.injEq] at h
      obtain ⟨h1, h2⟩ := h
      subst h2
      rfl

theorem walkForest_shape (st : TState) (p : ParentCtx) (f : DForest)
    (st1 : TState) (f1 : DForest) (h : walkForest st p f = some (st1, f1)) :
    headIsSubtitle f1 = headIsSubtitle f ∧
    hasSubtitleSecond f1 = hasSubtitleSecond f := by
  cases f with
  | nil =>
      simp only [walkForest, Option.some.injEq, Prod.mk.injEq] at h
      obtain ⟨h1, h2⟩ := h
      subst h2
      exact ⟨rfl, rfl⟩
  | cons n rest =>
      simp only [walkForest] at h
      split at h
      · simp at h
      next stA n1 hn =>
        split at h
        · simp at h
        next stB rest1 hr =>
          simp only [Option.some.injEq, Prod.mk.injEq] at h
          obtain ⟨h1, h2⟩ := h
          subst h2
          have hk := walkNode_subtitle_kind st p n stA n1 hn
          have hs := walkForest_shape stA p rest stB rest1 hr
          constructor
          · simp only [headIsSubtitle, hk]
          · rw [hasSubtitleSecond_cons, hasSubtitleSecond_cons]
            exact hs.1

end

mutual

theorem walkNode_idem (st : TState) (p : ParentCtx) (t : DNode) (st1 : TState)
    (t1 : DNode) (hk : noKbdNode t = true)
    (h : walkNode st p t = some (st1, t1)) :
    walkNode st p t1 = some (st1, t1) := by
  cases t
  next classes text =>
    have hkm : "kbd" ∉ classes := by
      simpa [noKbdNode] using hk
    simp only [walkNode, Option.some.injEq, Prod.mk.injEq] at h
    obtain ⟨h1, h2⟩ := h
    subst h1
    subst h2
    simp only [walkNode]
    rw [visit_literal_stable (noteVisit st) classes hkm]
  next refid ids text =>
    simp only [walkNode] at h
    split at h
    · simp at h
    next st2 ids1 hv =>
      simp only [Option.some.injEq, Prod.mk.injEq] at h
      obtain ⟨h1, h2⟩ := h
      subst h1
      subst h2
      simp only [walkNode]
      rw [visit_title_stable (noteVisit st) p refid ids st2 ids1 hv]
  next text =>
    simp only [walkNode, Option.some.injEq, Prod.mk.injEq] at h
    obtain ⟨h1, h2⟩ := h
    subst h1
    subst h2
    rfl
  next ids children =>
    have hkf : noKbdForest children = true := by
      simpa [noKbdNode] using hk
    simp only [walkNode] at h
    split at h
    · simp at h
    next st2 cs1 hw =>
      simp only [Option.some.injEq, Prod.mk.injEq] at h
      obtain ⟨h1, h2⟩ := h
      subst h1
      subst h2
      simp only [walkNode, (walkForest_shape _ _ _ _ _ hw).2,
        walkForest_idem _ _ _ _ _ hkf hw]

theorem walkForest_idem (st : TState) (p : ParentCtx) (f : DForest)
    (st1 : TState) (f1 : DForest) (hk : noKbdForest f = true)
    (h : walkForest st p f = some (st1, f1)) :
    walkForest st p f1 = some (st1, f1) := by
  cases f with
  | nil =>
      simp only [walkForest, Option.some.injEq, Prod.mk.injEq] at h
      obtain ⟨h1, h2⟩ := h
      subst h1
      subst h2
      rfl
  | cons n rest =>
      simp only [noKbdForest, Bool.and_eq_true] at hk
      simp only [walkForest] at h
      split at h
      · simp at h
      next stA n1 hn =>
        split at h
        · simp at h
        next stB rest1 hr =>
          simp only [Option.some.injEq, Prod.mk.injEq] at h
          obtain ⟨h1, h2⟩ := h
          subst h1
          subst h2
          simp only [walkForest, walkNode_idem st p n stA n1 hk.1 hn,
            walkForest_idem stA p rest stB rest1 hk.2 hr]

end

/-! ## Dictionary lemmas for the settings merge -/

theorem lookup_cons (k k2 : String) (v2 : DVal) (rest : List (String × DVal)) :
    List.lookup k ((k2, v2) :: rest) =
      if k = k2 then some v2 else List.lookup k rest := by
  by_cases h : k = k2
  · subst h
    simp [List.lookup]
  · have hb : (k == k2) = false := beq_eq_false_iff_ne.mpr h
    simp [List.lookup, hb, h]

theorem lookup_eq_none_of_not_mem (l : List (String × DVal)) (k : String)
    (h : k ∉ l.map Prod.fst) : l.lookup k = none := by
  induction l with
  | nil => rfl
  | cons p rest ih =>
      obtain ⟨k2, v2⟩ := p
      simp only [List.map_cons, List.mem_cons] at h
      push_neg at h
      rw [lookup_cons]
      simp [h.1, ih h.2]

theorem lookup_dictSet (d : List (String × DVal)) (k k1 : String) (v : DVal) :
    (dictSet d k v).lookup k1 = if k1 = k then some v else d.lookup k1 := by
  induction d with
  | nil =>
      simp only [dictSet, lookup_cons]
  | cons p rest ih =>
      obtain ⟨k2, v2⟩ := p
      by_cases h : k2 = k
      · subst h
        by_cases h1 : k1 = k2 <;> simp [dictSet, lookup_cons, h1]
      · by_cases h1 : k1 = k2
        · have hk1 : ¬ k1 = k := by rw [h1]; exact h
          simp [dictSet, lookup_cons, h, h1, hk1, ih]
        · simp [dictSet, lookup_cons, h, h1, ih]

theorem lookup_dictUpdate (u : List (String × DVal)) (k : String)
    (hnd : (u.map Prod.fst).Nodup) :
    ∀ d, (dictUpdate d u).lookup k =
      if (u.lookup k).isSome then u.lookup k else d.lookup k := by
  induction u with
  | nil => intro d; simp [dictUpdate, List.lookup]
  | cons p rest ih =>
      intro d
      obtain ⟨k2, v2⟩ := p
      simp only [List.map_cons, List.nodup_cons] at hnd
      have hstep : dictUpdate d ((k2, v2) :: rest) =
          dictUpdate (dictSet d k2 v2) rest := rfl
      rw [hstep, ih hnd.2 (dictSet d k2 v2), lookup_dictSet]
      simp only [lookup_cons]
      by_cases hk : k = k2
      · have hnone : rest.lookup k = none := by
          refine lookup_eq_none_of_not_mem rest k ?_
          rw [hk]
          exact hnd.1
        simp only [if_pos hk, hnone]
        simp
      · simp only [if_neg hk]

/-! ## Claim theorems -/

/-- C1: evaluating the hooks at a literal node whose only class is
`kbd` shows the divergence: the open tag is
`<kbd>` with the consumed class absent from the attributes (as claimed),
but the close fragment appended by `depart_literal` is `</code>`, not a
matching `</kbd>`, because `visit_literal` already stripped `kbd` from
the node's class list that `depart_literal` re-reads. -/
theorem literal_kbd_close_tag_bug :
    walkNode (initialTState defaultSettings) ParentCtx.document
        (DNode.literal ["kbd"] "Ctrl+C") =
      some ({ initialTState defaultSettings with
                trace := [0],
                body := ["<kbd>\n", "Ctrl+C", "</code>\n"] },
            DNode.literal [] "Ctrl+C") := rfl

/-- C2, counterexample: the first walk of a tree consisting of one
`kbd`-classed literal strips the marker class in place, so walking the
same (now mutated) tree again with a fresh formatter state yields a
byte-different output buffer (`<kbd>` first, `<code>` second): the claim
that re-walking the identical tree always reproduces the output is
false. -/
theorem rewalk_mutated_tree_differs :
    ((walkNode (initialTState defaultSettings) ParentCtx.document
        (DNode.literal ["kbd"] "x")).map (fun r => r.1.body) =
      some ["<kbd>\n", "x", "</code>\n"]) ∧
    ((walkNode (initialTState defaultSettings) ParentCtx.document
        (DNode.literal ["kbd"] "x")).map (fun r => r.2) =
      some (DNode.literal [] "x")) ∧
    ((walkNode (initialTState defaultSettings) ParentCtx.document
        (DNode.literal [] "x")).map (fun r => r.1.body) =
      some ["<code>\n", "x", "</code>\n"]) ∧
    (["<kbd>\n", "x", "</code>\n"] : List String) ≠
      ["<code>\n", "x", "</code>\n"] :=
  ⟨rfl, rfl, rfl, by decide⟩

/-- C2, amended: when no literal node of the tree carries the `kbd`
marker class, a document tree is a fixpoint of the walk after its first
walk: re-walking the tree the first walk leaves behind, from the same
fresh formatter state, reproduces the identical final state — in
particular a byte-identical output buffer — and the identical tree. -/
theorem rewalk_idempotent_without_kbd (st : TState) (p : ParentCtx)
    (t : DNode) (st1 : TState) (t1 : DNode) (hk : noKbdNode t = true)
    (h : walkNode st p t = some (st1, t1)) :
    walkNode st p t1 = some (st1, t1) :=
  walkNode_idem st p t st1 t1 hk h

/-- Witness for C2's amended theorem at a concrete `code` literal. -/
theorem rewalk_idempotent_without_kbd_witness :
    walkNode (initialTState defaultSettings) ParentCtx.document
        (DNode.literal [] "x=1") =
      some ({ initialTState defaultSettings with
                trace := [0],
                body := ["<code>\n", "x=1", "</code>\n"] },
            DNode.literal [] "x=1") :=
  rewalk_idempotent_without_kbd (initialTState defaultSettings)
    ParentCtx.document (DNode.literal ["code"] "x=1")
    { initialTState defaultSettings with
        trace := [0], body := ["<code>\n", "x=1", "</code>\n"] }
    (DNode.literal [] "x=1") (by decide) rfl

/-- The compact determination exactly as the specification's precedence
clauses word it: a `compact` class forces compact rendering; otherwise
the global setting (absent an `open` class) forces it; only if still
undetermined is compactness decided by the per-field check. -/
def specCompactChoice (setting : Bool) (node : FieldListNode) : Bool :=
  if "compact" ∈ node.classes then true
  else if setting && !("open" ∈ node.classes : Bool) then true
  else node.fields.all fieldOk

/-- C3, counterexample: a field list with the `compact` class but one
field whose body holds two paragraphs.  The claimed precedence forces
compact (`true`); the code's `visit_field_list` nevertheless runs the
per-field guard loop after the forced assignment and ends with the flag
`false`. -/
theorem compact_class_not_forcing :
    (specCompactChoice false
        { classes := ["compact"],
          fields := [{ body_children := [.paragraph, .paragraph] }] } = true) ∧
    ((visit_field_list
        { compact_field_list := false, compact_p := some true,
          fl_context := [], body := [], compact_field_lists_setting := false }
        { classes := ["compact"],
          fields := [{ body_children := [.paragraph, .paragraph] }]
        }).compact_field_list = false) :=
  ⟨rfl, rfl⟩

/-- C3, amended: the `compact` class — like the global setting absent
`open` — only tentatively enables compactness, and the per-field check
runs whenever the flag is enabled (including when it was already enabled
on entry, carried over from the surrounding state), disqualifying the
whole list on any field whose body is neither empty nor exactly one
paragraph / line block; when nothing enables the flag it keeps its entry
value and the per-field check is skipped. -/
theorem visit_field_list_compact_value (st : FLState) (node : FieldListNode) :
    (visit_field_list st node).compact_field_list =
      ((("compact" ∈ node.classes : Bool) ||
        (st.compact_field_lists_setting && !("open" ∈ node.classes : Bool)) ||
        st.compact_field_list) && node.fields.all fieldOk) := by
  by_cases h1 : "compact" ∈ node.classes
  · simp [visit_field_list, h1]
  · by_cases h2 : st.compact_field_lists_setting
    · by_cases h3 : "open" ∈ node.classes
      · by_cases h4 : st.compact_field_list <;>
          simp [visit_field_list, h1, h2, h3, h4]
      · simp [visit_field_list, h1, h2, h3]
    · by_cases h4 : st.compact_field_list <;>
        simp [visit_field_list, h1, h2, h4]

/-- C4: for a title under a section, when the nesting counter is `d` and
the configured initial header level is `L`, the fragment `visit_title`
emits first is the start tag of an `h(d + L - 1)` element, and the close
fragment it pushes ends in the matching `</h(d + L - 1)>`. -/
theorem title_section_heading_level (st : TState) (pids : List String)
    (ws : Bool) (refid : Option String) (ids : List String) (d L : Nat)
    (hd : st.section_level = d) (hL : st.settings.initial_header_level = L) :
    ∃ stf ids1 tail pre,
      visit_title st (ParentCtx.section pids ws) refid ids = some (stf, ids1) ∧
      stf.body = st.body ++
        (starttag ("h" ++ toString (d + L - 1)) ""
            (if ws then ["with-subtitle"] else []) [] pids [] :: tail) ∧
      stf.context =
        (pre ++ ("</h" ++ toString (d + L - 1) ++ ">\n")) :: st.context := by
  subst hd
  subst hL
  cases refid with
  | none =>
      refine ⟨_, _, [], "", rfl, rfl, ?_⟩
      rfl
  | some r =>
      refine ⟨_, _,
        [starttag "a" "" ["toc-backref"] [] [] [("href", "#" ++ r)]],
        "</a>", rfl, ?_, ?_⟩
      · rw [List.append_assoc]
        rfl
      · rw [← String.append_assoc]
        rfl

/-- Witness for C4 at counter 1, initial header level 2 (heading `h2`). -/
theorem title_section_heading_level_witness :
    ∃ stf ids1 tail pre,
      visit_title (visit_section (initialTState defaultSettings))
          (ParentCtx.section ["s1"] false) none [] = some (stf, ids1) ∧
      stf.body = (visit_section (initialTState defaultSettings)).body ++
        (starttag ("h" ++ toString (1 + 2 - 1)) ""
            (if false then ["with-subtitle"] else []) [] ["s1"] [] :: tail) ∧
      stf.context =
        (pre ++ ("</h" ++ toString (1 + 2 - 1) ++ ">\n")) ::
          (visit_section (initialTState defaultSettings)).context :=
  title_section_heading_level (visit_section (initialTState defaultSettings))
    ["s1"] false none [] 1 2 rfl rfl

/-- C5: for a section-parented title carrying `refid = "r1"`, the anchor
start tag `<a class="toc-backref" href="#r1">` is emitted immediately
after the opening heading tag, and the pushed close fragment is
`</a></h(level)>`. -/
theorem title_backref_anchor (st : TState) (pids : List String) (ws : Bool)
    (ids : List String) (r : String) (hr : r = "r1") :
    ∃ stf ids1,
      visit_title st (ParentCtx.section pids ws) (some r) ids =
        some (stf, ids1) ∧
      stf.body = st.body ++
        [starttag
            ("h" ++ toString
              (st.section_level + st.settings.initial_header_level - 1)) ""
            (if ws then ["with-subtitle"] else []) [] pids [],
         "<a class=\"toc-backref\" href=\"#r1\">"] ∧
      stf.context =
        ("</a></h" ++
            toString
              (st.section_level + st.settings.initial_header_level - 1) ++
            ">\n") :: st.context := by
  subst hr
  refine ⟨_, _, rfl, ?_, rfl⟩
  rw [List.append_assoc]
  rfl

/-- Witness for C5 at a concrete state. -/
theorem title_backref_anchor_witness :
    ∃ stf ids1,
      visit_title (initialTState defaultSettings)
          (ParentCtx.section [] false) (some "r1") [] = some (stf, ids1) ∧
      stf.body = (initialTState defaultSettings).body ++
        [starttag
            ("h" ++ toString
              ((initialTState defaultSettings).section_level +
                (initialTState defaultSettings).settings.initial_header_level
                - 1)) ""
            (if false then ["with-subtitle"] else []) [] [] [],
         "<a class=\"toc-backref\" href=\"#r1\">"] ∧
      stf.context =
        ("</a></h" ++
            toString
              ((initialTState defaultSettings).section_level +
                (initialTState defaultSettings).settings.initial_header_level
                - 1) ++
            ">\n") :: (initialTState defaultSettings).context :=
  title_backref_anchor (initialTState defaultSettings) [] false [] "r1" rfl

/-- C6: a complete walk from any state restores the nesting counter to
its pre-walk value, and the (ghost) trace of counter values observed at
each node visit extends by exactly the section-nesting depth of every
visited node relative to the pre-walk counter — i.e. the counter equals
the depth of the node being visited throughout, and increments and
decrements pair up. -/
theorem walk_section_counter_invariant (st : TState) (p : ParentCtx)
    (t : DNode) (st1 : TState) (t1 : DNode)
    (h : walkNode st p t = some (st1, t1)) :
    st1.section_level = st.section_level ∧
    st1.trace = st.trace ++ nodeDepths st.section_level t :=
  walkNode_trace st p t st1 t1 h

/-- Witness for C6 at a one-section, one-title tree. -/
theorem walk_section_counter_invariant_witness :
    ({ initialTState defaultSettings with
         body := ["<h2>", "T", "</h2>\n"],
         trace := [0, 1] } : TState).section_level =
      (initialTState defaultSettings).section_level ∧
    ({ initialTState defaultSettings with
         body := ["<h2>", "T", "</h2>\n"],
         trace := [0, 1] } : TState).trace =
      (initialTState defaultSettings).trace ++
        nodeDepths (initialTState defaultSettings).section_level
          (DNode.section [] (.cons (DNode.title none [] "T") .nil)) :=
  walk_section_counter_invariant (initialTState defaultSettings)
    ParentCtx.document
    (DNode.section [] (.cons (DNode.title none [] "T") .nil))
    { initialTState defaultSettings with
        body := ["<h2>", "T", "</h2>\n"], trace := [0, 1] }
    (DNode.section [] (.cons (DNode.title none [] "T") .nil)) rfl

/-- C7: visiting a title whose parent is none of the expected kinds
(topic, sidebar, admonition, table, document, section) is a fatal
assertion failure of the fallback branch, embedded as `none` — no state
is produced, for every state and node. -/
theorem title_unexpected_parent_fatal (st : TState) (refid : Option String)
    (ids : List String) :
    visit_title st ParentCtx.other refid ids = none := rfl

/-- C8: whatever the parent kind, a successful `visit_title` pushes
exactly one close fragment onto the pending-close stack, and the exit
hook (`depart_title`) pops exactly that fragment and appends it to the
output, restoring the stack. -/
theorem title_pushes_one_close (st : TState) (p : ParentCtx)
    (refid : Option String) (ids : List String) (stf : TState)
    (ids1 : List String)
    (h : visit_title st p refid ids = some (stf, ids1)) :
    ∃ c, stf.context = c :: st.context ∧
      (depart_title stf).context = st.context ∧
      (depart_title stf).body = stf.body ++ [c] := by
  cases p <;> (try cases refid) <;>
    simp only [visit_title, Option.some.injEq, Prod.mk.injEq] at h <;>
    obtain ⟨h1, h2⟩ := h <;> subst h1 <;> exact ⟨_, rfl, rfl, rfl⟩

/-- Witness for C8 at a topic-parented title. -/
theorem title_pushes_one_close_witness :
    ∃ c,
      ({ initialTState defaultSettings with
           body := ["<p class=\"topic-title first\">"],
           context := ["</p>\n"] } : TState).context =
        c :: (initialTState defaultSettings).context ∧
      (depart_title { initialTState defaultSettings with
           body := ["<p class=\"topic-title first\">"],
           context := ["</p>\n"] }).context =
        (initialTState defaultSettings).context ∧
      (depart_title { initialTState defaultSettings with
           body := ["<p class=\"topic-title first\">"],
           context := ["</p>\n"] }).body =
        ["<p class=\"topic-title first\">"] ++ [c] :=
  title_pushes_one_close (initialTState defaultSettings) ParentCtx.topic
    none []
    { initialTState defaultSettings with
        body := ["<p class=\"topic-title first\">"],
        context := ["</p>\n"] }
    [] rfl

/-- C9: the effective publisher settings are the plugin defaults with
exactly the keys present in the user override dictionary replaced: any
key the user supplies resolves to the user's value, any other key keeps
its default (the hypothesis mirrors a Python dict's unique keys). -/
theorem publisher_settings_merge (user : List (String × DVal)) (k : String)
    (hnd : (user.map Prod.fst).Nodup) :
    (mergedParams user).lookup k =
      if (user.lookup k).isSome then user.lookup k
      else extra_params.lookup k := by
  unfold mergedParams
  by_cases he : user.isEmpty
  · have : user = [] := List.isEmpty_iff.mp he
    subst this
    simp [List.lookup]
  · rw [if_neg he]
    exact lookup_dictUpdate user k hnd extra_params

/-- Witness for C9: one overridden key resolves to the user value. -/
theorem publisher_settings_merge_witness :
    ((mergedParams [("initial_header_level", DVal.str "3")]).lookup
        "initial_header_level" =
      if ([("initial_header_level", DVal.str "3")].lookup
            "initial_header_level").isSome
      then [("initial_header_level", DVal.str "3")].lookup
            "initial_header_level"
      else extra_params.lookup "initial_header_level") ∧
    (mergedParams [("initial_header_level", DVal.str "3")]).lookup
        "initial_header_level" = some (DVal.str "3") :=
  ⟨publisher_settings_merge [("initial_header_level", DVal.str "3")]
      "initial_header_level" (by decide), rfl⟩

/-- C10: for a literal whose class set contains both `code` and `kbd`,
only the `code` branch of `visit_literal` fires: the emitted start tag
is a `code` tag, the `code` class is stripped from the node, and the
un-consumed `kbd` class stays on the node, so it lands in the emitted
tag's class attribute (the filtered class list is nonempty, hence the
attribute is rendered, and it contains `kbd`). -/
theorem literal_code_and_kbd (st : TState) (classes : List String)
    (hc : "code" ∈ classes) (hk : "kbd" ∈ classes) :
    visit_literal st classes =
      ({ st with body := st.body ++
          [starttag "code" "\n" []
            (classes.filter (fun c => c ≠ "code")) [] []] },
       classes.filter (fun c => c ≠ "code")) ∧
    "kbd" ∈ classes.filter (fun c => c ≠ "code") ∧
    "code" ∉ classes.filter (fun c => c ≠ "code") ∧
    classes.filter (fun c => c ≠ "code") ≠ [] := by
  have hkf : "kbd" ∈ classes.filter (fun c => c ≠ "code") := by
    simp [List.mem_filter, hk]
  refine ⟨?_, hkf, ?_, ?_⟩
  · simp [visit_literal, hc]
  · simp [List.mem_filter]
  · intro hnil
    rw [hnil] at hkf
    exact absurd hkf (List.not_mem_nil "kbd")

/-- Witness for C10 at classes `code`, `kbd`. -/
theorem literal_code_and_kbd_witness :
    visit_literal (initialTState defaultSettings) ["code", "kbd"] =
      ({ initialTState defaultSettings with body :=
          (initialTState defaultSettings).body ++
          [starttag "code" "\n" []
            (["code", "kbd"].filter (fun c => c ≠ "code")) [] []] },
       ["code", "kbd"].filter (fun c => c ≠ "code")) ∧
    "kbd" ∈ ["code", "kbd"].filter (fun c => c ≠ "code") ∧
    "code" ∉ ["code", "kbd"].filter (fun c => c ≠ "code") ∧
    ["code", "kbd"].filter (fun c => c ≠ "code") ≠ [] :=
  literal_code_and_kbd (initialTState defaultSettings) ["code", "kbd"]
    (by decide) (by decide)

end PelicanSemantic
